import Mathlib

/-
Verification of the DDoS detection system's core components against its
natural-language specification.  The Python sources under core/ are shallowly
embedded: per-model classification results and the ensemble combinator
(core/classification_system.py), the flow table update (core/packet_capture.py),
the feature extractors (core/feature_extraction.py), the notification service
(core/notification_service.py) and the prevention engine
(core/prevention_engine.py).  Python floats are modelled as rationals; numpy's
standard deviation is kept symbolic (a square root of a rational); Python
dictionaries are modelled as association lists.
-/

namespace DDoSVerify

/-- Result of classifying one flow with one model, the 4-tuple
(is_attack, confidence, attack_type, class_index) returned by
ClassificationSystem._classify_with_model on success. -/
structure ModelResult where
  isAttack : Bool
  confidence : ℚ
  attackType : String
  classIndex : Option Nat
deriving Repr, DecidableEq, Inhabited

/-- Model of Python str.lower, mapping each character to lower case. -/
def pyLower (s : String) : String := ⟨s.data.map Char.toLower⟩

/-- Model of the Python builtin min on two rationals. -/
def pyMin (a b : ℚ) : ℚ := if a ≤ b then a else b

/-- Model of the Python builtin abs on a rational. -/
def pyAbs (a : ℚ) : ℚ := if a < 0 then -a else a

/-- Model of numpy.argmax on a list of rationals: the index of the first
occurrence of the maximum value; 0 on the empty list (where numpy raises). -/
def npArgmax : List ℚ → Nat
  | [] => 0
  | [_] => 0
  | x :: y :: rest =>
      let j := npArgmax (y :: rest)
      if (y :: rest).getD j 0 > x then j + 1 else 0

/-- Model of the slicing and padding of self.model_weights at the top of
_combine_results: weights = model_weights[:len(results)], extended by repeating
the last element when shorter.  Python raises IndexError when model_weights is
empty and results is not; the default 0 stands in for that unreachable case. -/
def pad_weights (w : List ℚ) (n : Nat) : List ℚ :=
  let t := w.take n
  if t.length < n then t ++ List.replicate (n - t.length) (t.getLastD 0) else t

/-- The loop body of the voting branch: vote_sum accumulated as
weights[i] * (1 if is_attack else 0) over enumerate(results). -/
def vote_sum_loop (wts : List ℚ) : Nat → List ModelResult → ℚ
  | _, [] => 0
  | i, r :: rest =>
      wts.getD i 0 * (if r.isAttack then 1 else 0) + vote_sum_loop wts (i + 1) rest

/-- The loop of the weighted branch building weighted_confidences:
adjusted_confidence * weights[i] for each enumerated result. -/
def weighted_conf_loop (wts : List ℚ) : Nat → List ModelResult → List ℚ
  | _, [] => []
  | i, r :: rest =>
      ((if r.isAttack then r.confidence else -r.confidence) * wts.getD i 0)
        :: weighted_conf_loop wts (i + 1) rest

/-- The for/else loop of the weighted branch looking for the first model whose
model_type lowercases to cicddos and which voted attack. -/
def first_cicddos_loop (modelTypes : List String) : Nat → List ModelResult → Option ModelResult
  | _, [] => none
  | i, r :: rest =>
      if pyLower (modelTypes.getD i "unknown") = "cicddos" && r.isAttack then some r
      else first_cicddos_loop modelTypes (i + 1) rest

/-- The list comprehension attack_idx = [i for i, vote in enumerate(attack_votes) if vote]. -/
def attack_idx_loop : Nat → List ModelResult → List Nat
  | _, [] => []
  | i, r :: rest =>
      if r.isAttack then i :: attack_idx_loop (i + 1) rest
      else attack_idx_loop (i + 1) rest

/-- Embedding of ClassificationSystem._combine_results.  The three fusion
policies (voting, weighted, default max_confidence) follow the source; a single
result is returned unchanged.  The empty-results case, on which the Python
indexing would raise, falls through to the same branches with getD defaults. -/
def combine_results (modelTypes : List String) (modelWeights : List ℚ)
    (method : String) (results : List ModelResult) : ModelResult :=
  if results.length = 1 then results.getD 0 default
  else
    let wts := pad_weights modelWeights results.length
    if method = "voting" then
      let voteSum := vote_sum_loop wts 0 results
      let isAtk := decide (voteSum > (1 : ℚ) / 2)
      let confidences := results.map (·.confidence)
      let maxIdx := npArgmax confidences
      let winner := results.getD maxIdx default
      { isAttack := isAtk
        confidence := winner.confidence
        attackType := if isAtk then winner.attackType else "Normal"
        classIndex := winner.classIndex }
    else if method = "weighted" then
      let weightedConfidences := weighted_conf_loop wts 0 results
      let finalSum := weightedConfidences.sum
      let isAtk := decide (finalSum > 0)
      let conf := pyMin 1 (pyAbs finalSum)
      if isAtk then
        match first_cicddos_loop modelTypes 0 results with
        | some r => { isAttack := isAtk, confidence := conf,
                      attackType := r.attackType, classIndex := r.classIndex }
        | none =>
          let attackIdx := attack_idx_loop 0 results
          if attackIdx.isEmpty then
            { isAttack := isAtk, confidence := conf,
              attackType := "Generic DDoS", classIndex := none }
          else
            let attackConfidences := attackIdx.map (fun i => (results.getD i default).confidence)
            let maxIdx := attackIdx.getD (npArgmax attackConfidences) 0
            let winner := results.getD maxIdx default
            { isAttack := isAtk, confidence := conf,
              attackType := winner.attackType, classIndex := winner.classIndex }
      else
        { isAttack := isAtk, confidence := conf,
          attackType := "Normal", classIndex := none }
    else
      let weightedConfidences := (List.range results.length).map
        (fun i => (results.getD i default).confidence * wts.getD i 0)
      let maxIdx := npArgmax weightedConfidences
      let winner := results.getD maxIdx default
      if winner.isAttack && pyLower (modelTypes.getD maxIdx "unknown") = "suricata" then
        match first_cicddos_loop modelTypes 0 results with
        | some r => { winner with attackType := r.attackType }
        | none => winner
      else winner

/-! Specification-side definitions, written from the claims of the spec rather
than from the source, for comparison with combine_results. -/

/-- The weighted adjusted sum of the claim: S = sum of weights[i] *
(confidence_i if is_attack_i else -confidence_i). -/
def claim_weighted_sum (weights : List ℚ) (results : List ModelResult) : ℚ :=
  ((results.zip weights).map
    (fun p => p.2 * (if p.1.isAttack then p.1.confidence else -p.1.confidence))).sum

/-- The weighted vote of the claim for the voting policy:
sum of weights[i] * [is_attack_i]. -/
def claim_vote_sum (weights : List ℚ) (results : List ModelResult) : ℚ :=
  ((results.zip weights).map (fun p => p.2 * (if p.1.isAttack then 1 else 0))).sum

/-- The claimed fused confidence of the voting policy: the weighted sum of all
per-model confidences. -/
def claim_voting_confidence (weights : List ℚ) (results : List ModelResult) : ℚ :=
  ((results.zip weights).map (fun p => p.2 * p.1.confidence)).sum

/-- The first model result whose declared model type is CICDDoS (case
insensitive) and which voted attack, as described by the claim. -/
def claim_first_cicddos (modelTypes : List String) (results : List ModelResult) :
    Option ModelResult :=
  ((modelTypes.zip results).find?
    (fun p => pyLower p.1 = "cicddos" && p.2.isAttack)).map Prod.snd

/-- The result with the highest confidence, earlier results winning ties. -/
def max_conf_result : List ModelResult → Option ModelResult
  | [] => none
  | r :: rest =>
    match max_conf_result rest with
    | none => some r
    | some b => if b.confidence > r.confidence then some b else some r

/-- Accumulate a weight onto the entry of a key, keeping insertion order. -/
def dict_add_weight (l : List (String × ℚ)) (k : String) (w : ℚ) : List (String × ℚ) :=
  match l with
  | [] => [(k, w)]
  | p :: rest => if p.1 = k then (p.1, p.2 + w) :: rest else p :: dict_add_weight rest k w

/-- Table mapping each attack type reported by some model to the summed weights
of the models reporting it, keyed in insertion order. -/
def type_weight_table (pairs : List (ModelResult × ℚ)) : List (String × ℚ) :=
  pairs.foldl (fun acc p => dict_add_weight acc p.1.attackType p.2) []

/-- The first entry of maximal weight, earlier entries winning ties. -/
def first_max_entry : List (String × ℚ) → Option (String × ℚ)
  | [] => none
  | p :: rest =>
    match first_max_entry rest with
    | none => some p
    | some b => if b.2 > p.2 then some b else some p

/-- The claimed voting attack type: the attack type maximizing the summed
weights of the models reporting it, ties broken by insertion order. -/
def claim_voting_attack_type (weights : List ℚ) (results : List ModelResult) : String :=
  ((first_max_entry (type_weight_table (results.zip weights))).map Prod.fst).getD "Normal"

/-- The claimed attack type of the weighted policy when the fused verdict is
attack: the first CICDDoS model voting attack, otherwise the attacking model
with the highest confidence, with fallback Generic DDoS. -/
def claim_weighted_attack_type (modelTypes : List String) (results : List ModelResult) : String :=
  match claim_first_cicddos modelTypes results with
  | some r => r.attackType
  | none =>
    match max_conf_result (results.filter (·.isAttack)) with
    | some r => r.attackType
    | none => "Generic DDoS"

/-! Helper lemmas relating the index-based loops of the source embedding to the
structural definitions used by the claims. -/

theorem npArgmax_lt : ∀ l : List ℚ, l ≠ [] → npArgmax l < l.length
  | [_], _ => by simp [npArgmax]
  | x :: y :: rest, _ => by
    have ih : npArgmax (y :: rest) < rest.length + 1 := by
      simpa using npArgmax_lt (y :: rest) (by simp)
    simp only [npArgmax, List.length_cons]
    split <;> omega

theorem getD_map_of_lt (l : List α) (f : α → β) (j : Nat) (d1 : β) (d2 : α)
    (h : j < l.length) : (l.map f).getD j d1 = f (l.getD j d2) := by
  rw [List.getD_eq_getElem _ _ (by simpa using h), List.getD_eq_getElem _ _ h,
    List.getElem_map]

theorem max_conf_result_cons (r : ModelResult) (rest : List ModelResult) :
    max_conf_result (r :: rest) =
      match max_conf_result rest with
      | none => some r
      | some b => if b.confidence > r.confidence then some b else some r := rfl

theorem max_conf_result_isSome {ys : List ModelResult} (h : ys ≠ []) :
    (max_conf_result ys).isSome := by
  cases ys with
  | nil => exact absurd rfl h
  | cons r rest =>
    rw [max_conf_result_cons]
    cases hrest : max_conf_result rest with
    | none => simp
    | some b =>
      simp only [hrest]
      split <;> simp

theorem npArgmax_cons_cons (x y : ℚ) (rest : List ℚ) :
    npArgmax (x :: y :: rest) =
      if (y :: rest).getD (npArgmax (y :: rest)) 0 > x
      then npArgmax (y :: rest) + 1 else 0 := rfl

theorem getD_npArgmax_eq_max_conf :
    ∀ (ys : List ModelResult) (d : ModelResult), ys ≠ [] →
      ys.getD (npArgmax (ys.map (·.confidence))) d = (max_conf_result ys).getD d
  | [y], d, _ => by simp [npArgmax, max_conf_result]
  | y :: z :: rest, d, _ => by
    have hne : (z :: rest : List ModelResult) ≠ [] := by simp
    have ih := getD_npArgmax_eq_max_conf (z :: rest) d hne
    have hlt : npArgmax ((z :: rest).map (·.confidence)) < ((z :: rest) : List ModelResult).length :=
      by simpa using npArgmax_lt ((z :: rest).map (·.confidence)) (by simp)
    obtain ⟨b, hb⟩ := Option.isSome_iff_exists.mp (max_conf_result_isSome hne)
    have hval : ((z :: rest).map (·.confidence)).getD
        (npArgmax ((z :: rest).map (·.confidence))) 0 = b.confidence := by
      rw [getD_map_of_lt _ _ _ _ d hlt, ih, hb]
      rfl
    have hmap : (y :: z :: rest).map (·.confidence)
        = y.confidence :: z.confidence :: rest.map (·.confidence) := rfl
    have harg : npArgmax ((y :: z :: rest).map (·.confidence)) =
        if b.confidence > y.confidence
        then npArgmax ((z :: rest).map (·.confidence)) + 1 else 0 := by
      rw [hmap, npArgmax_cons_cons]
      rw [show (z.confidence :: rest.map (·.confidence))
          = (z :: rest).map (·.confidence) from rfl, hval]
    rw [harg, max_conf_result_cons, hb]
    by_cases hgt : b.confidence > y.confidence
    · rw [if_pos hgt]
      simp only [if_pos hgt, List.getD_cons_succ]
      rw [ih, hb]
    · rw [if_neg hgt]
      simp only [if_neg hgt, List.getD_cons_zero]
      rfl

theorem pad_weights_self (w : List ℚ) (n : Nat) (h : w.length = n) :
    pad_weights w n = w := by
  subst h
  simp [pad_weights, List.take_length]

theorem vote_sum_loop_shift (w : ℚ) (ws : List ℚ) :
    ∀ (rs : List ModelResult) (i : Nat),
      vote_sum_loop (w :: ws) (i + 1) rs = vote_sum_loop ws i rs
  | [], _ => rfl
  | r :: rest, i => by
    simp only [vote_sum_loop, List.getD_cons_succ]
    rw [vote_sum_loop_shift w ws rest (i + 1)]

theorem vote_sum_loop_eq_claim :
    ∀ (rs : List ModelResult) (ws : List ℚ), rs.length ≤ ws.length →
      vote_sum_loop ws 0 rs = claim_vote_sum ws rs
  | [], ws, _ => by simp [vote_sum_loop, claim_vote_sum]
  | r :: rest, [], h => by simp at h
  | r :: rest, w :: ws, h => by
    have ih := vote_sum_loop_eq_claim rest ws (by simpa using h)
    simp only [vote_sum_loop, List.getD_cons_zero, vote_sum_loop_shift, ih,
      claim_vote_sum, List.zip_cons_cons, List.map_cons, List.sum_cons]

theorem weighted_conf_loop_shift (w : ℚ) (ws : List ℚ) :
    ∀ (rs : List ModelResult) (i : Nat),
      weighted_conf_loop (w :: ws) (i + 1) rs = weighted_conf_loop ws i rs
  | [], _ => rfl
  | r :: rest, i => by
    simp only [weighted_conf_loop, List.getD_cons_succ]
    rw [weighted_conf_loop_shift w ws rest (i + 1)]

theorem weighted_conf_loop_sum_eq_claim :
    ∀ (rs : List ModelResult) (ws : List ℚ), rs.length ≤ ws.length →
      (weighted_conf_loop ws 0 rs).sum = claim_weighted_sum ws rs
  | [], ws, _ => by simp [weighted_conf_loop, claim_weighted_sum]
  | r :: rest, [], h => by simp at h
  | r :: rest, w :: ws, h => by
    have ih := weighted_conf_loop_sum_eq_claim rest ws (by simpa using h)
    simp only [weighted_conf_loop, List.getD_cons_zero, weighted_conf_loop_shift,
      List.sum_cons, ih, claim_weighted_sum, List.zip_cons_cons, List.map_cons]
    ring

theorem first_cicddos_loop_shift (m : String) (ms : List String) :
    ∀ (rs : List ModelResult) (i : Nat),
      first_cicddos_loop (m :: ms) (i + 1) rs = first_cicddos_loop ms i rs
  | [], _ => rfl
  | r :: rest, i => by
    simp only [first_cicddos_loop, List.getD_cons_succ]
    rw [first_cicddos_loop_shift m ms rest (i + 1)]

theorem first_cicddos_loop_eq_claim :
    ∀ (rs : List ModelResult) (mt : List String), rs.length ≤ mt.length →
      first_cicddos_loop mt 0 rs = claim_first_cicddos mt rs
  | [], mt, _ => by simp [first_cicddos_loop, claim_first_cicddos]
  | r :: rest, [], h => by simp at h
  | r :: rest, m :: mt, h => by
    have ih := first_cicddos_loop_eq_claim rest mt (by simpa using h)
    simp only [first_cicddos_loop, List.getD_cons_zero, first_cicddos_loop_shift, ih,
      claim_first_cicddos, List.zip_cons_cons, List.find?_cons]
    by_cases hc : (pyLower m = "cicddos" && r.isAttack) = true
    · simp [hc]
    · simp [hc]

theorem attack_idx_loop_cons (i : Nat) (r : ModelResult) (rest : List ModelResult) :
    attack_idx_loop i (r :: rest) =
      if r.isAttack then i :: attack_idx_loop (i + 1) rest
      else attack_idx_loop (i + 1) rest := rfl

theorem attack_idx_map_getD :
    ∀ (rs pre : List ModelResult),
      (attack_idx_loop pre.length rs).map (fun j => (pre ++ rs).getD j default)
        = rs.filter (·.isAttack)
  | [], pre => by simp [attack_idx_loop]
  | r :: rest, pre => by
    have ih := attack_idx_map_getD rest (pre ++ [r])
    have hlen : (pre ++ [r]).length = pre.length + 1 := by simp
    have happ : (pre ++ [r]) ++ rest = pre ++ r :: rest := by simp
    rw [hlen, happ] at ih
    have hhead : (pre ++ r :: rest).getD pre.length default = r := by
      rw [List.getD_append_right _ _ _ _ (le_refl _)]
      simp
    rw [attack_idx_loop_cons]
    by_cases hr : r.isAttack
    · rw [if_pos hr, List.map_cons, hhead, ih, List.filter_cons]
      simp [hr]
    · rw [if_neg hr, ih, List.filter_cons]
      simp [hr]

theorem attack_idx_map_getD_nil (rs : List ModelResult) :
    (attack_idx_loop 0 rs).map (fun j => rs.getD j default) = rs.filter (·.isAttack) := by
  have h := attack_idx_map_getD rs []
  simpa using h

theorem pyMin_eq_min (a b : ℚ) : pyMin a b = min a b := by
  rw [pyMin, min_def]

theorem pyAbs_eq_abs (a : ℚ) : pyAbs a = abs a := by
  rcases lt_or_ge a 0 with h | h
  · rw [pyAbs, if_pos h, abs_of_neg h]
  · rw [pyAbs, if_neg (not_lt.mpr h), abs_of_nonneg h]

/-- The winner of the weighted branch's attacking-model selection equals the
first attacking result of maximal confidence. -/
theorem weighted_attack_winner_eq (rs : List ModelResult)
    (hne : attack_idx_loop 0 rs ≠ []) :
    rs.getD ((attack_idx_loop 0 rs).getD
        (npArgmax ((attack_idx_loop 0 rs).map (fun i => (rs.getD i default).confidence))) 0)
      default
      = (max_conf_result (rs.filter (·.isAttack))).getD default := by
  have hA := attack_idx_map_getD_nil rs
  have hconfs : (attack_idx_loop 0 rs).map (fun i => (rs.getD i default).confidence)
      = (rs.filter (·.isAttack)).map (·.confidence) := by
    rw [← hA, List.map_map]
    rfl
  have hfne : rs.filter (·.isAttack) ≠ [] := by
    intro hcontra
    rw [hcontra] at hA
    exact hne (List.map_eq_nil_iff.mp hA)
  have hcne : (rs.filter (·.isAttack)).map (·.confidence) ≠ [] := by
    simpa using hfne
  have hlt : npArgmax ((attack_idx_loop 0 rs).map (fun i => (rs.getD i default).confidence))
      < (attack_idx_loop 0 rs).length := by
    rw [hconfs]
    have h := npArgmax_lt _ hcne
    rw [List.length_map] at h
    have hlen : (rs.filter (·.isAttack)).length = (attack_idx_loop 0 rs).length := by
      rw [← hA, List.length_map]
    omega
  rw [← getD_map_of_lt (attack_idx_loop 0 rs) (fun j => rs.getD j default) _ default 0 hlt,
    hA, hconfs]
  exact getD_npArgmax_eq_max_conf _ _ hfne

/-- C1: under the weighted fusion policy with at least two model results, the
fused verdict is (S greater than 0), the fused confidence is min 1 abs S for
the weighted adjusted sum S, and the attack type follows the claimed
first-CICDDoS / max-confidence-attacker / Generic DDoS selection, with Normal
on a non-attack verdict. -/
theorem claim_c1_weighted (modelTypes : List String) (modelWeights : List ℚ)
    (results : List ModelResult)
    (h2 : 2 ≤ results.length)
    (hw : modelWeights.length = results.length)
    (hm : modelTypes.length = results.length) :
    (combine_results modelTypes modelWeights "weighted" results).isAttack
        = decide (claim_weighted_sum modelWeights results > 0) ∧
    (combine_results modelTypes modelWeights "weighted" results).confidence
        = min 1 (abs (claim_weighted_sum modelWeights results)) ∧
    (combine_results modelTypes modelWeights "weighted" results).attackType
        = (if claim_weighted_sum modelWeights results > 0
           then claim_weighted_attack_type modelTypes results else "Normal") := by
  have h1 : ¬ results.length = 1 := by omega
  have hwts : pad_weights modelWeights results.length = modelWeights :=
    pad_weights_self _ _ hw
  have hsum := weighted_conf_loop_sum_eq_claim results modelWeights (by omega)
  have hcic := first_cicddos_loop_eq_claim results modelTypes (by omega)
  simp only [combine_results, if_neg h1, hwts]
  rw [if_neg (show ¬ ("weighted" : String) = "voting" by decide), if_pos trivial]
  rw [hsum, hcic]
  by_cases hpos : claim_weighted_sum modelWeights results > 0
  · have hd : decide (claim_weighted_sum modelWeights results > 0) = true :=
      decide_eq_true hpos
    simp only [hd, if_true, if_pos hpos]
    cases hfc : claim_first_cicddos modelTypes results with
    | some r =>
      simp [claim_weighted_attack_type, hfc, pyMin_eq_min, pyAbs_eq_abs]
    | none =>
      simp only [claim_weighted_attack_type, hfc]
      by_cases hemp : (attack_idx_loop 0 results).isEmpty
      · have hloopnil : attack_idx_loop 0 results = [] := by
          simpa [List.isEmpty_iff] using hemp
        have hfilnil : results.filter (·.isAttack) = [] := by
          have hA := attack_idx_map_getD_nil results
          rw [hloopnil] at hA
          exact hA.symm
        simp [hemp, hfilnil, max_conf_result, pyMin_eq_min, pyAbs_eq_abs]
      · have hloopne : attack_idx_loop 0 results ≠ [] := by
          simpa [List.isEmpty_iff] using hemp
        have hwin := weighted_attack_winner_eq results hloopne
        have hfne : results.filter (·.isAttack) ≠ [] := by
          intro hcontra
          have hA := attack_idx_map_getD_nil results
          rw [hcontra] at hA
          exact hloopne (List.map_eq_nil_iff.mp hA)
        obtain ⟨b, hb⟩ := Option.isSome_iff_exists.mp (max_conf_result_isSome hfne)
        simp only [hemp, Bool.false_eq_true, if_false, hwin, hb]
        simp [pyMin_eq_min, pyAbs_eq_abs]
  · have hd : decide (claim_weighted_sum modelWeights results > 0) = false :=
      decide_eq_false hpos
    simp only [hd, Bool.false_eq_true, if_false, if_neg hpos]
    simp [pyMin_eq_min, pyAbs_eq_abs]

/-- Scenario of spec section 8 item 6: a CICDDoS model voting attack with
confidence 0.8 and a Suricata model voting normal with confidence 0.9. -/
def demo_weighted_results : List ModelResult :=
  [⟨true, 4/5, "UDP Flood", some 5⟩, ⟨false, 9/10, "Normal", some 0⟩]

/-- Witness for C1 at the spec's model-disagreement scenario. -/
theorem claim_c1_weighted_witness :
    2 ≤ demo_weighted_results.length ∧
    ((combine_results ["cicddos", "suricata"] [3/5, 2/5] "weighted" demo_weighted_results).isAttack
        = decide (claim_weighted_sum [3/5, 2/5] demo_weighted_results > 0) ∧
     (combine_results ["cicddos", "suricata"] [3/5, 2/5] "weighted" demo_weighted_results).confidence
        = min 1 (abs (claim_weighted_sum [3/5, 2/5] demo_weighted_results)) ∧
     (combine_results ["cicddos", "suricata"] [3/5, 2/5] "weighted" demo_weighted_results).attackType
        = (if claim_weighted_sum [3/5, 2/5] demo_weighted_results > 0
           then claim_weighted_attack_type ["cicddos", "suricata"] demo_weighted_results
           else "Normal")) ∧
    (combine_results ["cicddos", "suricata"] [3/5, 2/5] "weighted" demo_weighted_results).confidence
        = 3/25 ∧
    (combine_results ["cicddos", "suricata"] [3/5, 2/5] "weighted" demo_weighted_results).attackType
        = "UDP Flood" := by
  have h := claim_c1_weighted ["cicddos", "suricata"] [3/5, 2/5] demo_weighted_results
    (by norm_num [demo_weighted_results]) (by norm_num [demo_weighted_results])
    (by norm_num [demo_weighted_results])
  have hs : claim_weighted_sum [3/5, 2/5] demo_weighted_results = 3/25 := by
    norm_num [claim_weighted_sum, demo_weighted_results]
  have hp1 : pyLower "cicddos" = "cicddos" := by decide
  refine ⟨by norm_num [demo_weighted_results], h, ?_, ?_⟩
  · rw [h.2.1, hs, abs_of_pos (by norm_num : (0:ℚ) < 3/25)]
    exact min_eq_right (by norm_num)
  · rw [h.2.2, if_pos (show claim_weighted_sum [3/5, 2/5] demo_weighted_results > 0 by
      rw [hs]; norm_num)]
    norm_num [claim_weighted_attack_type, claim_first_cicddos, demo_weighted_results, hp1]

/-- Counterexample to C4 as stated: with both models voting attack
(confidences 0.8 and 0.9, weights 0.6 and 0.4), the voting policy returns the
raw confidence 0.9 of the max-confidence model, not the claimed weighted sum
0.84, and that model's type Generic DDoS, not the claimed weight-argmax type
UDP Flood. -/
theorem claim_c4_counterexample :
    (combine_results ["cicddos", "suricata"] [3/5, 2/5] "voting"
        [⟨true, 4/5, "UDP Flood", some 5⟩, ⟨true, 9/10, "Generic DDoS", some 0⟩]).confidence
      = 9/10 ∧
    claim_voting_confidence [3/5, 2/5]
        [⟨true, 4/5, "UDP Flood", some 5⟩, ⟨true, 9/10, "Generic DDoS", some 0⟩] = 21/25 ∧
    (combine_results ["cicddos", "suricata"] [3/5, 2/5] "voting"
        [⟨true, 4/5, "UDP Flood", some 5⟩, ⟨true, 9/10, "Generic DDoS", some 0⟩]).attackType
      = "Generic DDoS" ∧
    claim_voting_attack_type [3/5, 2/5]
        [⟨true, 4/5, "UDP Flood", some 5⟩, ⟨true, 9/10, "Generic DDoS", some 0⟩] = "UDP Flood" ∧
    ((9 : ℚ)/10 ≠ 21/25) := by
  refine ⟨?_, ?_, ?_, ?_, by norm_num⟩
  · norm_num [combine_results, pad_weights, vote_sum_loop, npArgmax]
  · norm_num [claim_voting_confidence]
  · norm_num [combine_results, pad_weights, vote_sum_loop, npArgmax]
  · norm_num [claim_voting_attack_type, type_weight_table, dict_add_weight,
      first_max_entry]

/-- C4 amended: under the voting policy with two or more results, is_attack is
the weighted vote compared against one half as claimed, but the fused
confidence and the attack type are taken from the model with the highest raw
confidence (first on ties), the type being overridden to Normal when the fused
verdict is not attack. -/
theorem claim_c4_voting_amended (modelTypes : List String) (modelWeights : List ℚ)
    (results : List ModelResult)
    (h2 : 2 ≤ results.length)
    (hw : modelWeights.length = results.length) :
    (combine_results modelTypes modelWeights "voting" results).isAttack
        = decide (claim_vote_sum modelWeights results > 1/2) ∧
    (combine_results modelTypes modelWeights "voting" results).confidence
        = ((max_conf_result results).getD default).confidence ∧
    (combine_results modelTypes modelWeights "voting" results).attackType
        = (if claim_vote_sum modelWeights results > 1/2
           then ((max_conf_result results).getD default).attackType else "Normal") := by
  have h1 : ¬ results.length = 1 := by omega
  have hwts : pad_weights modelWeights results.length = modelWeights :=
    pad_weights_self _ _ hw
  have hsum := vote_sum_loop_eq_claim results modelWeights (by omega)
  have hne : results ≠ [] := by
    intro hcontra
    rw [hcontra] at h2
    simp at h2
  have hwin := getD_npArgmax_eq_max_conf results default hne
  simp only [combine_results, if_neg h1, hwts]
  rw [if_pos trivial]
  rw [hsum, hwin]
  by_cases hpos : claim_vote_sum modelWeights results > 1/2
  · have hd : decide (claim_vote_sum modelWeights results > 1/2) = true :=
      decide_eq_true hpos
    simp only [hd, if_true, if_pos hpos]
    simp
  · have hd : decide (claim_vote_sum modelWeights results > 1/2) = false :=
      decide_eq_false hpos
    simp only [hd, Bool.false_eq_true, if_false, if_neg hpos]
    simp

/-- Two-model voting scenario used as the witness input of the amended C4. -/
def demo_voting_results : List ModelResult :=
  [⟨true, 4/5, "UDP Flood", some 5⟩, ⟨true, 9/10, "Generic DDoS", some 0⟩]

/-- Witness for the amended C4 at a concrete two-model input. -/
theorem claim_c4_voting_amended_witness :
    2 ≤ demo_voting_results.length ∧
    ((combine_results ["cicddos", "suricata"] [3/5, 2/5] "voting" demo_voting_results).isAttack
        = decide (claim_vote_sum [3/5, 2/5] demo_voting_results > 1/2) ∧
     (combine_results ["cicddos", "suricata"] [3/5, 2/5] "voting" demo_voting_results).confidence
        = ((max_conf_result demo_voting_results).getD default).confidence ∧
     (combine_results ["cicddos", "suricata"] [3/5, 2/5] "voting" demo_voting_results).attackType
        = (if claim_vote_sum [3/5, 2/5] demo_voting_results > 1/2
           then ((max_conf_result demo_voting_results).getD default).attackType
           else "Normal")) :=
  ⟨by norm_num [demo_voting_results],
   claim_c4_voting_amended ["cicddos", "suricata"] [3/5, 2/5] demo_voting_results
     (by norm_num [demo_voting_results]) (by norm_num [demo_voting_results])⟩

/-! Embedding of the flow table of core/packet_capture.py.  A flow is created
by _update_flow on the first packet of its key and mutated by the same function
on every packet; direction is forward or backward as assigned by the keying. -/

/-- Direction tag assigned to a packet by the bidirectional flow keying. -/
inductive Direction where
  | forward
  | backward
deriving Repr, DecidableEq

/-- TCP header data used by _update_flow: the flags byte and the window. -/
structure TcpInfo where
  flags : Nat
  window : Nat
deriving Repr, DecidableEq

/-- The data of one captured packet as seen by _update_flow. -/
structure PacketInfo where
  direction : Direction
  size : Nat
  ts : ℚ
  tcp : Option TcpInfo
deriving Repr, DecidableEq

/-- The flow dictionary created and mutated by PacketCapture._update_flow.
The protocol field holds the numeric IP protocol (ip.proto or ipv6.nh), an
integer for every flow built by the capture component. -/
structure Flow where
  protocol : Int
  srcPort : Option Nat
  dstPort : Option Nat
  startTime : ℚ
  lastTime : ℚ
  packets : Nat
  bytes : Nat
  packetSizes : List Nat
  packetTimes : List ℚ
  interArrivalTimes : List ℚ
  synCount : Nat
  ackCount : Nat
  finCount : Nat
  rstCount : Nat
  pshCount : Nat
  urgCount : Nat
  fwdLengths : List Nat
  bwdLengths : List Nat
  fwdPackets : Nat
  bwdPackets : Nat
  fwdBytes : Nat
  bwdBytes : Nat
  initWinFwd : Nat
  initWinBwd : Nat
  analyzed : Bool
deriving Repr, DecidableEq

/-- The zeroed flow inserted by _update_flow on first sighting, including the
recording of the initial TCP window into the arriving packet's direction. -/
def init_flow (protocol : Int) (srcPort dstPort : Option Nat) (p : PacketInfo) : Flow :=
  { protocol := protocol
    srcPort := srcPort
    dstPort := dstPort
    startTime := p.ts
    lastTime := p.ts
    packets := 0
    bytes := 0
    packetSizes := []
    packetTimes := []
    interArrivalTimes := []
    synCount := 0, ackCount := 0, finCount := 0
    rstCount := 0, pshCount := 0, urgCount := 0
    fwdLengths := []
    bwdLengths := []
    fwdPackets := 0
    bwdPackets := 0
    fwdBytes := 0
    bwdBytes := 0
    initWinFwd := match p.tcp, p.direction with
      | some t, .forward => t.window
      | _, _ => 0
    initWinBwd := match p.tcp, p.direction with
      | some t, .backward => t.window
      | _, _ => 0
    analyzed := false }

/-- The per-packet mutation of _update_flow: totals, directional counters and
length lists, timing, and the per-flag TCP counters (SYN 0x02, ACK 0x10,
FIN 0x01, RST 0x04, PSH 0x08, URG 0x20). -/
def update_flow (fl : Flow) (p : PacketInfo) : Flow :=
  let fl1 := { fl with
    lastTime := p.ts
    packets := fl.packets + 1
    bytes := fl.bytes + p.size
    packetSizes := fl.packetSizes ++ [p.size] }
  let fl2 := match p.direction with
    | .forward => { fl1 with
        fwdPackets := fl1.fwdPackets + 1
        fwdBytes := fl1.fwdBytes + p.size
        fwdLengths := fl1.fwdLengths ++ [p.size] }
    | .backward => { fl1 with
        bwdPackets := fl1.bwdPackets + 1
        bwdBytes := fl1.bwdBytes + p.size
        bwdLengths := fl1.bwdLengths ++ [p.size] }
  let fl3 := { fl2 with
    packetTimes := fl2.packetTimes ++ [p.ts]
    interArrivalTimes :=
      if fl2.packetTimes ≠ [] then
        fl2.interArrivalTimes ++ [p.ts - fl2.packetTimes.getLastD 0]
      else fl2.interArrivalTimes }
  match p.tcp with
  | some t => { fl3 with
      synCount := fl3.synCount + (if t.flags.testBit 1 then 1 else 0)
      ackCount := fl3.ackCount + (if t.flags.testBit 4 then 1 else 0)
      finCount := fl3.finCount + (if t.flags.testBit 0 then 1 else 0)
      rstCount := fl3.rstCount + (if t.flags.testBit 2 then 1 else 0)
      pshCount := fl3.pshCount + (if t.flags.testBit 3 then 1 else 0)
      urgCount := fl3.urgCount + (if t.flags.testBit 5 then 1 else 0) }
  | none => fl3

/-- A flow as produced by delivering the first packet p and then the packets ps
to _update_flow under one flow key. -/
def process_flow (protocol : Int) (srcPort dstPort : Option Nat)
    (p : PacketInfo) (ps : List PacketInfo) : Flow :=
  ps.foldl update_flow (update_flow (init_flow protocol srcPort dstPort p) p)

/-- The directional-counter invariant of a flow. -/
def flow_counters_ok (fl : Flow) : Prop :=
  fl.fwdPackets + fl.bwdPackets = fl.packets ∧ fl.fwdBytes + fl.bwdBytes = fl.bytes

theorem update_flow_counters_ok (fl : Flow) (p : PacketInfo)
    (h : flow_counters_ok fl) : flow_counters_ok (update_flow fl p) := by
  obtain ⟨h1, h2⟩ := h
  cases hd : p.direction <;> cases htcp : p.tcp <;>
    simp [update_flow, flow_counters_ok, hd, htcp] <;> omega

theorem foldl_update_flow_counters_ok :
    ∀ (ps : List PacketInfo) (fl : Flow), flow_counters_ok fl →
      flow_counters_ok (ps.foldl update_flow fl)
  | [], _, h => h
  | p :: ps, fl, h =>
    foldl_update_flow_counters_ok ps (update_flow fl p) (update_flow_counters_ok fl p h)

/-- C2: for every flow of the flow table, after any sequence of processed
packets, forward plus backward packet counters equal the total packet counter,
and likewise for the byte counters. -/
theorem claim_c2_flow_counters (protocol : Int) (srcPort dstPort : Option Nat)
    (p : PacketInfo) (ps : List PacketInfo) :
    (process_flow protocol srcPort dstPort p ps).fwdPackets
        + (process_flow protocol srcPort dstPort p ps).bwdPackets
        = (process_flow protocol srcPort dstPort p ps).packets ∧
    (process_flow protocol srcPort dstPort p ps).fwdBytes
        + (process_flow protocol srcPort dstPort p ps).bwdBytes
        = (process_flow protocol srcPort dstPort p ps).bytes := by
  have h0 : flow_counters_ok (init_flow protocol srcPort dstPort p) := by
    simp [init_flow, flow_counters_ok]
  exact foldl_update_flow_counters_ok ps _ (update_flow_counters_ok _ p h0)

/-! Embedding of ClassificationSystem.classify_flow's model loop and its error
handling around _classify_with_model. -/

/-- Outcome of running one model inside the try body of _classify_with_model:
either the per-model result and the missing-feature list, or an exception
raised by feature extraction or prediction. -/
inductive ModelRun where
  | ok (r : ModelResult) (missing : List String)
  | raises
deriving Repr, DecidableEq

/-- The value returned by _classify_with_model: the success path returns the
pair (result, missing_features); the except path returns the bare 4-tuple
(False, 0.0, "Error", None). -/
inductive ClassifyValue where
  | pair (r : ModelResult) (missing : List String)
  | quad (r : ModelResult)
deriving Repr, DecidableEq

/-- Embedding of _classify_with_model over the outcome of the model run. -/
def classify_with_model : ModelRun → ClassifyValue
  | .ok r missing => .pair r missing
  | .raises => .quad ⟨false, 0, "Error", none⟩

/-- The tuple unpacking of classify_flow at the call site of
_classify_with_model: a pair unpacks, while the bare 4-tuple of the except
path makes the unpacking raise ValueError. -/
def unpack_pair : ClassifyValue → Except String (ModelResult × List String)
  | .pair r missing => .ok (r, missing)
  | .quad _ => .error "ValueError: too many values to unpack (expected 2)"

/-- Embedding of classify_flow: run each model through _classify_with_model,
unpack each return value, and combine the per-model results; an exception
escaping the loop aborts classify_flow. -/
def classify_flow (modelTypes : List String) (modelWeights : List ℚ)
    (method : String) (runs : List ModelRun) : Except String ModelResult := do
  let pairs ← runs.mapM (fun m => unpack_pair (classify_with_model m))
  pure (combine_results modelTypes modelWeights method (pairs.map Prod.fst))

/-- C3: when scoring with one model raises, the except branch of
_classify_with_model returns a bare 4-tuple labelled Error rather than the
claimed (false, 0, Unknown) pair, and the unpacking in classify_flow raises
ValueError, so the ensemble aborts instead of continuing with the remaining
models. -/
theorem claim_c3_model_failure :
    classify_with_model .raises = .quad ⟨false, 0, "Error", none⟩ ∧
    classify_flow ["cicddos", "suricata"] [3/5, 2/5] "weighted"
        [.raises, .ok ⟨true, 9/10, "Generic DDoS", some 0⟩ []]
      = .error "ValueError: too many values to unpack (expected 2)" :=
  ⟨rfl, rfl⟩

/-! Embedding of the feature extractors of core/feature_extraction.py and the
feature fields added by core/packet_capture.py.  Feature dictionaries are
association lists from feature names to numeric values. -/

/-- A numeric value of a feature dictionary: a rational, the symbolic square
root of a rational produced by numpy.std, or Python None. -/
inductive PyNum where
  | rat (q : ℚ)
  | sqrtRat (q : ℚ)
  | noneVal
deriving Repr, DecidableEq

/-- The dynamic value of the protocol entry of a flow dictionary: the capture
component stores the numeric IP protocol, while the extractor expects a
protocol name string. -/
inductive PyProto where
  | pint (n : Int)
  | pstr (s : String)
deriving Repr, DecidableEq

/-- The protocol entry of a capture-built flow dictionary is the numeric
protocol. -/
def flow_proto (f : Flow) : PyProto := .pint f.protocol

/-- Model of the Python builtin max on two rationals. -/
def pyMax (a b : ℚ) : ℚ := if a ≤ b then b else a

/-- Model of the Python builtin min on a nonempty list of naturals. -/
def py_list_min : List Nat → Nat
  | [] => 0
  | x :: xs => xs.foldl Nat.min x

/-- Model of the Python builtin max on a nonempty list of naturals. -/
def py_list_max : List Nat → Nat
  | [] => 0
  | x :: xs => xs.foldl Nat.max x

/-- Model of numpy.std, kept symbolic as the square root of the population
variance. -/
def np_std (l : List ℚ) : PyNum :=
  let m := l.sum / l.length
  .sqrtRat ((l.map (fun x => (x - m) ^ 2)).sum / l.length)

/-- FeatureExtractor._get_protocol_number: protocol_map.get(proto.lower(), 0),
where the lowercased key can only hit the lowercase entries of protocol_map. -/
def get_protocol_number (proto : String) : Int :=
  if pyLower proto = "tcp" then 6
  else if pyLower proto = "udp" then 17
  else if pyLower proto = "icmp" then 1
  else if pyLower proto = "ipv6-icmp" then 58
  else 0

/-- The protocol one-hot keys of the Suricata schema, in source order. -/
def suricata_proto_list : List String :=
  ["tcp", "udp", "ipv6-icmp", "icmp", "ICMP", "IPv6-ICMP", "TCP", "UDP"]

/-- The default_values table of FeatureExtractor._create_default_values:
6 for Protocol, 1.0 for the two ratios, 0 for every other feature (and for
names outside the table, via the .get fallback). -/
def default_value (c : String) : PyNum :=
  if c = "Protocol" then .rat 6
  else if c = "bytes_ratio" then .rat 1
  else if c = "pkts_ratio" then .rat 1
  else .rat 0

/-- The eight CIC-DDoS feature names, in the order of self.cicddos_features. -/
def cicddos_feature_columns : List String :=
  ["ACK Flag Count", "Fwd Packet Length Min", "Protocol", "URG Flag Count",
   "Fwd Packet Length Max", "Fwd Packet Length Std", "Init Fwd Win Bytes",
   "Bwd Packet Length Max"]

/-- Embedding of FeatureExtractor._extract_cicddos_features on a capture-built
flow.  The try body computes the flag counts, the length features and the
initial window; the final step protocol.lower() raises AttributeError on the
numeric protocol stored by the capture component, and the except handler then
fills the one missing feature, Protocol, with its default 6.  A string
protocol would be mapped through _get_protocol_number. -/
def extract_cicddos_features (f : Flow) : List (String × PyNum) :=
  let fwdL := if f.fwdLengths.isEmpty then [0] else f.fwdLengths
  let bwdL := if f.bwdLengths.isEmpty then [0] else f.bwdLengths
  let base : List (String × PyNum) :=
    [("ACK Flag Count", .rat f.ackCount),
     ("URG Flag Count", .rat f.urgCount),
     ("Fwd Packet Length Min", .rat (py_list_min fwdL)),
     ("Fwd Packet Length Max", .rat (py_list_max fwdL)),
     ("Fwd Packet Length Std",
       if 1 < fwdL.length then np_std (fwdL.map (fun n => (n : ℚ))) else .rat 0),
     ("Bwd Packet Length Max", .rat (py_list_max bwdL)),
     ("Init Fwd Win Bytes", .rat f.initWinFwd)]
  match flow_proto f with
  | .pstr s => base ++ [("Protocol", .rat (get_protocol_number s))]
  | .pint _ => base ++ [("Protocol", default_value "Protocol")]

/-- Embedding of FeatureExtractor.prepare_features_df: for each required
column keep the extracted value when present, else substitute the default. -/
def prepare_features_df (features : List (String × PyNum)) (cols : List String) :
    List (String × PyNum) :=
  cols.map (fun c => (c, (features.lookup c).getD (default_value c)))

/-- PacketCapture._add_cicddos_features protocol mapping: 6 and 17 kept,
1 and 58 both mapped to 1, anything else to 0.  This value is written into the
flow dictionary but recomputed, and thus discarded, by the extractor. -/
def add_cicddos_protocol (protocol : Int) : Int :=
  if protocol = 6 then 6
  else if protocol = 17 then 17
  else if protocol = 1 ∨ protocol = 58 then 1
  else 0

/-- A UDP flow as built by the capture pipeline: numeric protocol 17,
ports 53 and 40000, two packets. -/
def udp_demo_flow : Flow :=
  process_flow 17 (some 53) (some 40000)
    ⟨.forward, 120, 0, none⟩ [⟨.backward, 60, 1, none⟩]

/-- C5: on a UDP flow built by the capture pipeline, the numeric protocol 17
makes protocol.lower() raise inside _extract_cicddos_features, so the
Protocol feature that reaches the classifier is the default 6, although the
capture side's own _add_cicddos_features maps the same flow to 17 as the
claim states. -/
theorem claim_c5_protocol_defaulted :
    (extract_cicddos_features udp_demo_flow).lookup "Protocol" = some (.rat 6) ∧
    (prepare_features_df (extract_cicddos_features udp_demo_flow)
        cicddos_feature_columns).lookup "Protocol" = some (.rat 6) ∧
    add_cicddos_protocol udp_demo_flow.protocol = 17 ∧
    ((6 : ℚ) ≠ 17) := by
  refine ⟨?_, ?_, ?_, by norm_num⟩
  · rfl
  · rfl
  · rfl

/-- The well-known ports of PacketCapture._init_wellknown_ports: the common
service ports followed by the streaming service ports; membership in the list
models membership in the set. -/
def capture_wellknown_ports : List Nat :=
  [20, 21, 22, 23, 25, 53, 80, 110, 143, 443, 465, 587, 993, 995, 3306, 3389,
   5432, 8080, 8443] ++ [1935, 8080, 8443, 1935, 3478, 19302, 443, 80]

/-- The fixed port set named by the claim (and by the spec), which is the
capture component's common-service list without the streaming additions. -/
def claim_wellknown_ports : List Nat :=
  [20, 21, 22, 23, 25, 53, 80, 110, 143, 443, 465, 587, 993, 995, 3306, 3389,
   5432, 8080, 8443]

/-- PacketCapture._add_suricata_features' well-known-port flag: set when the
flow's src_port (after the None-to-0 replacement) or dst_port is in the
wellknown_ports set.  This value is written into the flow dictionary but
recomputed, and thus discarded, by the extractor. -/
def add_suricata_wellknown (f : Flow) : Nat :=
  if (decide ((f.srcPort.getD 0) ∈ capture_wellknown_ports)
      || (match f.dstPort with
          | some dp => decide (dp ∈ capture_wellknown_ports)
          | none => false)) then 1 else 0

/-- The protocol one-hot features of _extract_suricata_features: for a string
protocol each casing variant is set by a lowercased comparison; the numeric
protocol of a capture-built flow makes protocol.lower() raise, and the except
handler fills each missing one-hot with its default 0. -/
def proto_one_hot : PyProto → List (String × PyNum)
  | .pstr s =>
      suricata_proto_list.map
        (fun t => ("proto_" ++ t, .rat (if pyLower t = pyLower s then 1 else 0)))
  | .pint _ =>
      suricata_proto_list.map (fun t => ("proto_" ++ t, .rat 0))

/-- Embedding of FeatureExtractor._extract_suricata_features on a
capture-built flow.  Ports come from the flow dictionary's src_port (already
None-replaced by the capture side) and dst_port; the byte and packet counts
come from the bytes_toserver, bytes_toclient, pkts_toserver and pkts_toclient
entries the capture side set from its directional counters.  The well-known
flag is recomputed as a below-1024 test with Python's short-circuit or, which
raises TypeError on a None dst_port, and the except handler then fills the
flag and the one-hots with defaults. -/
def extract_suricata_features (f : Flow) : List (String × PyNum) :=
  let srcPort := f.srcPort.getD 0
  let bytesToServer : ℚ := f.fwdBytes
  let bytesToClient : ℚ := f.bwdBytes
  let pktsToServer : ℚ := f.fwdPackets
  let pktsToClient : ℚ := f.bwdPackets
  let totalBytes := bytesToServer + bytesToClient
  let totalPkts := pktsToServer + pktsToClient
  let base : List (String × PyNum) :=
    [("src_port", .rat srcPort),
     ("dest_port", match f.dstPort with | some dp => .rat dp | none => .noneVal),
     ("bytes_toserver", .rat bytesToServer),
     ("bytes_toclient", .rat bytesToClient),
     ("pkts_toserver", .rat pktsToServer),
     ("pkts_toclient", .rat pktsToClient),
     ("total_bytes", .rat totalBytes),
     ("total_pkts", .rat totalPkts),
     ("avg_bytes_per_pkt", .rat (totalBytes / pyMax 1 totalPkts)),
     ("bytes_ratio",
       .rat (if bytesToClient > 0 then bytesToServer / pyMax 1 bytesToClient
             else bytesToServer)),
     ("pkts_ratio",
       .rat (if pktsToClient > 0 then pktsToServer / pyMax 1 pktsToClient
             else pktsToServer))]
  if srcPort < 1024 then
    base ++ [("is_wellknown_port", .rat 1)] ++ proto_one_hot (flow_proto f)
  else
    match f.dstPort with
    | some dp =>
        base ++ [("is_wellknown_port", .rat (if dp < 1024 then 1 else 0))]
          ++ proto_one_hot (flow_proto f)
    | none =>
        base ++ [("is_wellknown_port", .rat 0)]
          ++ suricata_proto_list.map (fun t => ("proto_" ++ t, .rat 0))

/-- A UDP flow with source port 8080 and destination port 30000 as built by
the capture pipeline. -/
def wellknown_demo_flow : Flow :=
  process_flow 17 (some 8080) (some 30000) ⟨.forward, 120, 0, none⟩ []

/-- Counterexample to C6 as stated: for a flow with ports 8080 and 30000 the
extractor recomputes is_wellknown_port as a below-1024 test and emits 0, while
the claimed fixed-set test (8080 is in the set) demands 1; the capture side's
own set-based flag, which does give 1, never reaches the classifier. -/
theorem claim_c6_counterexample :
    (extract_suricata_features wellknown_demo_flow).lookup "is_wellknown_port"
        = some (.rat 0) ∧
    8080 ∈ claim_wellknown_ports ∧
    add_suricata_wellknown wellknown_demo_flow = 1 ∧
    PyNum.rat 0 ≠ .rat 1 := by
  refine ⟨rfl, by decide, by decide, ?_⟩
  intro h
  have h2 : (0 : ℚ) = 1 := by injection h
  norm_num at h2

/-- C6 amended: for every capture-built flow carrying both ports, the
is_wellknown_port feature that reaches the classifier equals 1 exactly when
the source port or the destination port is below 1024; the fixed-set flag
computed by the capture component is overwritten by this recomputation. -/
theorem claim_c6_wellknown_amended (f : Flow) (sp dp : Nat)
    (hsp : f.srcPort = some sp) (hdp : f.dstPort = some dp) :
    (extract_suricata_features f).lookup "is_wellknown_port"
      = some (.rat (if sp < 1024 ∨ dp < 1024 then 1 else 0)) := by
  by_cases h1 : sp < 1024
  · have : (if sp < 1024 ∨ dp < 1024 then (1 : ℚ) else 0) = 1 := by
      rw [if_pos (Or.inl h1)]
    rw [this]
    simp only [extract_suricata_features, hsp, hdp, Option.getD_some, if_pos h1]
    rfl
  · have heq : (if sp < 1024 ∨ dp < 1024 then (1 : ℚ) else 0)
        = (if dp < 1024 then 1 else 0) := by
      by_cases h2 : dp < 1024
      · rw [if_pos (Or.inr h2), if_pos h2]
      · rw [if_neg (by tauto), if_neg h2]
    rw [heq]
    simp only [extract_suricata_features, hsp, hdp, Option.getD_some, if_neg h1]
    rfl

/-- Witness for the amended C6 at the concrete 8080/30000 flow. -/
theorem claim_c6_wellknown_amended_witness :
    wellknown_demo_flow.srcPort = some 8080 ∧
    wellknown_demo_flow.dstPort = some 30000 ∧
    (extract_suricata_features wellknown_demo_flow).lookup "is_wellknown_port"
      = some (.rat (if 8080 < 1024 ∨ 30000 < 1024 then 1 else 0)) :=
  ⟨rfl, rfl, claim_c6_wellknown_amended wellknown_demo_flow 8080 30000 rfl rfl⟩

/-! Embedding of core/notification_service.py: notify() filters an attack and
appends it to the single pending list; the notification loop dispatches the
whole pending batch as one notification when the global cooldown has passed. -/

/-- The fields of an attack_info record that the notification service
inspects, plus the source address named by the claim's key. -/
structure AttackInfo where
  attackType : String
  srcIp : String
  confidence : ℚ
deriving Repr, DecidableEq

/-- Configuration of NotificationService. -/
structure NotifConfig where
  cooldownPeriod : ℚ
  minConfidence : ℚ
  criticalTypes : List String
deriving Repr

/-- Mutable state of NotificationService, with the history of dispatched
notifications (time and batch) recorded for specification purposes. -/
structure NotifState where
  lastNotificationTime : ℚ
  pending : List AttackInfo
  dispatched : List (ℚ × List AttackInfo)
deriving Repr, DecidableEq

/-- Initial state: last_notification_time = 0, no pending notifications. -/
def notif_init : NotifState := ⟨0, [], []⟩

/-- Embedding of NotificationService.notify: drop the attack when confidence
is below min_confidence, or when a critical-type list is configured and the
attack type is not in it; otherwise append it to pending_notifications.  No
per-key state is consulted. -/
def notify (cfg : NotifConfig) (st : NotifState) (a : AttackInfo) : NotifState :=
  if a.confidence < cfg.minConfidence then st
  else if cfg.criticalTypes ≠ [] ∧ a.attackType ∉ cfg.criticalTypes then st
  else { st with pending := st.pending ++ [a] }

/-- Embedding of one iteration of NotificationService._notification_loop at
time now: when pending notifications exist and the global cooldown has passed
since the last dispatch, send them all as one notification, set the last
dispatch time and clear the pending list; otherwise do nothing. -/
def notif_tick (cfg : NotifConfig) (st : NotifState) (now : ℚ) : NotifState :=
  if st.pending ≠ [] ∧ cfg.cooldownPeriod ≤ now - st.lastNotificationTime then
    { lastNotificationTime := now
      pending := []
      dispatched := st.dispatched ++ [(now, st.pending)] }
  else st

/-- An event of the notification service: an incoming attack or a loop tick. -/
inductive NotifEvent where
  | attack (a : AttackInfo)
  | tick (now : ℚ)
deriving Repr

/-- Run the notification service from its initial state over a trace. -/
def run_notif (cfg : NotifConfig) (events : List NotifEvent) : NotifState :=
  events.foldl
    (fun st e =>
      match e with
      | .attack a => notify cfg st a
      | .tick now => notif_tick cfg st now)
    notif_init

/-- Counterexample to C7 as stated: with cooldown 300, an attack of one key is
dispatched at time 1000; a second attack with a different key, whose key has
never been notified, arrives at once, yet the tick at time 1010 dispatches
nothing, because the cooldown is global rather than per (attack_type, src)
key.  The full dispatch history is the single batch of the first attack. -/
theorem claim_c7_counterexample :
    (run_notif ⟨300, 0, []⟩
        [.attack ⟨"SYN Flood", "203.0.113.5", 1⟩, .tick 1000,
         .attack ⟨"UDP Flood", "198.51.100.7", 1⟩, .tick 1010]).dispatched
      = [(1000, [⟨"SYN Flood", "203.0.113.5", 1⟩])] ∧
    (("UDP Flood", "198.51.100.7") : String × String) ≠ ("SYN Flood", "203.0.113.5") := by
  constructor
  · norm_num [run_notif, notify, notif_tick, notif_init]
  · simp

/-- C7 amended: notification dispatch is rate-limited by one global cooldown,
not deduplicated per (attack_type, src) key: a tick dispatches the entire
pending batch as a single notification exactly when the cooldown has passed
since the last dispatch, resetting timer and pending list; any tick within the
cooldown of the last dispatch changes nothing; and notify appends every attack
passing the confidence and critical-type filters, regardless of key. -/
theorem claim_c7_global_cooldown (cfg : NotifConfig) (st : NotifState) (t : ℚ)
    (hpend : st.pending ≠ [])
    (hcool : cfg.cooldownPeriod ≤ t - st.lastNotificationTime) :
    (notif_tick cfg st t).dispatched = st.dispatched ++ [(t, st.pending)] ∧
    (notif_tick cfg st t).pending = [] ∧
    (notif_tick cfg st t).lastNotificationTime = t ∧
    (∀ (st2 : NotifState) (t2 : ℚ),
      t2 - st2.lastNotificationTime < cfg.cooldownPeriod →
      notif_tick cfg st2 t2 = st2) ∧
    (∀ (st3 : NotifState) (a : AttackInfo),
      ¬ a.confidence < cfg.minConfidence →
      ¬ (cfg.criticalTypes ≠ [] ∧ a.attackType ∉ cfg.criticalTypes) →
      notify cfg st3 a = { st3 with pending := st3.pending ++ [a] }) := by
  refine ⟨?_, ?_, ?_, ?_, ?_⟩
  · rw [notif_tick, if_pos ⟨hpend, hcool⟩]
  · rw [notif_tick, if_pos ⟨hpend, hcool⟩]
  · rw [notif_tick, if_pos ⟨hpend, hcool⟩]
  · intro st2 t2 h
    rw [notif_tick, if_neg]
    rintro ⟨-, h2⟩
    exact absurd h2 (not_le.mpr h)
  · intro st3 a h1 h2
    rw [notify, if_neg h1, if_neg h2]

/-- Witness for the amended C7 at a concrete state and tick time. -/
theorem claim_c7_global_cooldown_witness :
    ((⟨0, [⟨"SYN Flood", "203.0.113.5", 1⟩], []⟩ : NotifState).pending ≠ []) ∧
    ((⟨300, 0, []⟩ : NotifConfig).cooldownPeriod
        ≤ 1000 - (⟨0, [⟨"SYN Flood", "203.0.113.5", 1⟩], []⟩ : NotifState).lastNotificationTime) ∧
    ((notif_tick ⟨300, 0, []⟩ ⟨0, [⟨"SYN Flood", "203.0.113.5", 1⟩], []⟩ 1000).dispatched
        = [] ++ [(1000, [⟨"SYN Flood", "203.0.113.5", 1⟩])] ∧
     (notif_tick ⟨300, 0, []⟩ ⟨0, [⟨"SYN Flood", "203.0.113.5", 1⟩], []⟩ 1000).pending = [] ∧
     (notif_tick ⟨300, 0, []⟩ ⟨0, [⟨"SYN Flood", "203.0.113.5", 1⟩], []⟩ 1000).lastNotificationTime
        = 1000 ∧
     (∀ (st2 : NotifState) (t2 : ℚ),
       t2 - st2.lastNotificationTime < (⟨300, 0, []⟩ : NotifConfig).cooldownPeriod →
       notif_tick ⟨300, 0, []⟩ st2 t2 = st2) ∧
     (∀ (st3 : NotifState) (a : AttackInfo),
       ¬ a.confidence < (⟨300, 0, []⟩ : NotifConfig).minConfidence →
       ¬ ((⟨300, 0, []⟩ : NotifConfig).criticalTypes ≠ []
           ∧ a.attackType ∉ (⟨300, 0, []⟩ : NotifConfig).criticalTypes) →
       notify ⟨300, 0, []⟩ st3 a = { st3 with pending := st3.pending ++ [a] })) :=
  ⟨by simp, by norm_num,
   claim_c7_global_cooldown ⟨300, 0, []⟩ ⟨0, [⟨"SYN Flood", "203.0.113.5", 1⟩], []⟩ 1000
     (by simp) (by norm_num)⟩

/-! Embedding of core/prevention_engine.py: the blocklist state, the blocking
and unblocking operations, and the expiry sweep.  The firewall effector is a
parameter mapping an address to the success of its iptables command, and every
operation also reports the list of firewall commands it attempted. -/

/-- A firewall effector command: append or delete a drop rule for a source
address in the DDOS_PROTECTION chain. -/
inductive FwCmd where
  | addRule (ip : String)
  | delRule (ip : String)
deriving Repr, DecidableEq

/-- Blocklist state of PreventionEngine: blocked_ips maps an address to its
expiry time, blocked_by_attack_type indexes blocked addresses by attack
type. -/
structure PrevState where
  blockedIps : List (String × ℚ)
  blockedByType : List (String × List String)
deriving Repr, DecidableEq

/-- Python dict assignment d[k] = v: replace the entry of an existing key in
place, else append a new entry. -/
def dict_set (l : List (String × α)) (k : String) (v : α) : List (String × α) :=
  match l with
  | [] => [(k, v)]
  | p :: rest => if p.1 = k then (k, v) :: rest else p :: dict_set rest k v

/-- Python del d[k]: drop the entries of the key. -/
def dict_remove (l : List (String × α)) (k : String) : List (String × α) :=
  l.filter (fun p => p.1 ≠ k)

/-- Python set.add on a set modelled as a duplicate-free list. -/
def set_add (l : List String) (ip : String) : List String :=
  if ip ∈ l then l else l ++ [ip]

/-- The two-step recording of an attack type: ensure the key exists in
blocked_by_attack_type, then add the address to its set. -/
def add_type_entry (bt : List (String × List String)) (atype ip : String) :
    List (String × List String) :=
  match bt.lookup atype with
  | some ips => dict_set bt atype (set_add ips ip)
  | none => bt ++ [(atype, [ip])]

/-- The removal of an address from every attack-type set, as done on unblock
and on sweep. -/
def remove_ip_from_types (bt : List (String × List String)) (ip : String) :
    List (String × List String) :=
  bt.map (fun p => (p.1, p.2.filter (fun x => x ≠ ip)))

/-- Python's duration or self.block_duration: a None or zero duration falls
back to the default. -/
def resolve_duration (duration : Option ℚ) (defaultDur : ℚ) : ℚ :=
  match duration with
  | some d => if d ≠ 0 then d else defaultDur
  | none => defaultDur

/-- Embedding of PreventionEngine._do_block_ip.  An already-blocked address
keeps a single entry whose expiry is only extended, gains the attack type, and
returns true without touching the firewall; a new address first goes through
the effector and, on failure, leaves the state unchanged and returns false. -/
def do_block_ip (blockOk : String → Bool) (now defaultDur : ℚ)
    (st : PrevState) (ip attackType : String) (duration : Option ℚ) :
    Bool × PrevState × List FwCmd :=
  match st.blockedIps.lookup ip with
  | some currentExpiry =>
      let newExpiry := now + resolve_duration duration defaultDur
      let blockedIps :=
        if newExpiry > currentExpiry then dict_set st.blockedIps ip newExpiry
        else st.blockedIps
      (true,
       { blockedIps := blockedIps
         blockedByType := add_type_entry st.blockedByType attackType ip },
       [])
  | none =>
      if blockOk ip = false then (false, st, [.addRule ip])
      else
        (true,
         { blockedIps := dict_set st.blockedIps ip
             (now + resolve_duration duration defaultDur)
           blockedByType := add_type_entry st.blockedByType attackType ip },
         [.addRule ip])

/-- Embedding of PreventionEngine.unblock_ip: only an address present in
blocked_ips reaches the effector; state is removed only when the effector
succeeds. -/
def unblock_ip (unblockOk : String → Bool) (st : PrevState) (ip : String) :
    Bool × PrevState × List FwCmd :=
  match st.blockedIps.lookup ip with
  | some _ =>
      if unblockOk ip then
        (true,
         { blockedIps := dict_remove st.blockedIps ip
           blockedByType := remove_ip_from_types st.blockedByType ip },
         [.delRule ip])
      else (false, st, [.delRule ip])
  | none => (false, st, [])

/-- One step of the sweep loop of _cleanup_expired_blocks over an expired
address: state is removed only when the effector delete succeeds. -/
def cleanup_step (unblockOk : String → Bool)
    (acc : PrevState × List FwCmd) (ip : String) : PrevState × List FwCmd :=
  if unblockOk ip then
    ({ blockedIps := dict_remove acc.1.blockedIps ip
       blockedByType := remove_ip_from_types acc.1.blockedByType ip },
     acc.2 ++ [.delRule ip])
  else (acc.1, acc.2 ++ [.delRule ip])

/-- The expired addresses selected by _cleanup_expired_blocks at a sweep. -/
def expired_ips (now : ℚ) (st : PrevState) : List String :=
  (st.blockedIps.filter (fun p => p.2 ≤ now)).map Prod.fst

/-- Embedding of PreventionEngine._cleanup_expired_blocks. -/
def cleanup_expired_blocks (unblockOk : String → Bool) (now : ℚ)
    (st : PrevState) : PrevState × List FwCmd :=
  (expired_ips now st).foldl (cleanup_step unblockOk) (st, [])

theorem mem_of_lookup_eq_some {l : List (String × α)} {k : String} {v : α}
    (h : l.lookup k = some v) : (k, v) ∈ l := by
  induction l with
  | nil => simp [List.lookup] at h
  | cons p rest ih =>
    cases p with
    | mk k1 v1 =>
      simp only [List.lookup] at h
      cases hbeq : k == k1 with
      | true =>
        rw [hbeq] at h
        have hk : k = k1 := eq_of_beq hbeq
        have hv : v1 = v := by simpa using h
        rw [hk, hv]
        exact List.mem_cons_self _ _
      | false =>
        rw [hbeq] at h
        exact List.mem_cons_of_mem _ (ih h)

theorem lookup_dict_remove_ne (l : List (String × α)) (k k2 : String)
    (h : k ≠ k2) : (dict_remove l k).lookup k2 = l.lookup k2 := by
  induction l with
  | nil => rfl
  | cons p rest ih =>
    by_cases hp : p.1 = k
    · have hk2 : (k2 == p.1) = false := by
        rw [hp]
        exact beq_false_of_ne (Ne.symm h)
      simp only [dict_remove, List.filter_cons]
      rw [if_neg (by simp [hp])]
      rw [List.lookup_cons]
      simp only [hk2]
      exact ih
    · simp only [dict_remove, List.filter_cons]
      rw [if_pos (by simp [hp])]
      rw [List.lookup_cons, List.lookup_cons]
      cases hbeq : (k2 == p.1) with
      | true => rfl
      | false => exact ih

theorem cleanup_fold_preserves_failed (unblockOk : String → Bool) (ip2 : String)
    (hfail : unblockOk ip2 = false) :
    ∀ (ips : List String) (acc : PrevState × List FwCmd),
      ((ips.foldl (cleanup_step unblockOk) acc).1.blockedIps.lookup ip2
        = acc.1.blockedIps.lookup ip2)
  | [], acc => rfl
  | ipk :: ips, acc => by
    have ih := cleanup_fold_preserves_failed unblockOk ip2 hfail ips
      (cleanup_step unblockOk acc ipk)
    rw [List.foldl_cons, ih]
    by_cases hk : unblockOk ipk = true
    · have hne : ipk ≠ ip2 := by
        intro hcontra
        rw [hcontra, hfail] at hk
        exact Bool.false_ne_true hk
      simp only [cleanup_step, if_pos hk]
      exact lookup_dict_remove_ne _ _ _ hne
    · simp only [cleanup_step, if_neg hk]

/-- C8: an effector failure on Add records no blocklist state and returns
false; an effector failure on Remove, whether on an explicit unblock or during
the expiry sweep, retains the whole blocklist state unchanged for that address
(unblock_ip returns false after attempting the delete), and a still-expired
retained entry is selected again by any later sweep. -/
theorem claim_c8_effector_failure (blockOk unblockOk : String → Bool)
    (now defaultDur : ℚ) (st : PrevState) (ip attackType : String)
    (duration : Option ℚ)
    (h1 : st.blockedIps.lookup ip = none) (h2 : blockOk ip = false) :
    do_block_ip blockOk now defaultDur st ip attackType duration
      = (false, st, [.addRule ip]) ∧
    (∀ (st2 : PrevState) (ip2 : String) (e : ℚ), unblockOk ip2 = false →
      st2.blockedIps.lookup ip2 = some e →
      unblock_ip unblockOk st2 ip2 = (false, st2, [.delRule ip2])) ∧
    (∀ (st2 : PrevState) (ip2 : String), unblockOk ip2 = false →
      (cleanup_expired_blocks unblockOk now st2).1.blockedIps.lookup ip2
        = st2.blockedIps.lookup ip2) ∧
    (∀ (st2 : PrevState) (ip2 : String) (e : ℚ), unblockOk ip2 = false →
      st2.blockedIps.lookup ip2 = some e → e ≤ now →
      ∀ now2, now ≤ now2 →
        ip2 ∈ expired_ips now2 (cleanup_expired_blocks unblockOk now st2).1) := by
  refine ⟨?_, ?_, ?_, ?_⟩
  · simp [do_block_ip, h1, h2]
  · intro st2 ip2 e hfail hlook
    simp [unblock_ip, hlook, hfail]
  · intro st2 ip2 hfail
    exact cleanup_fold_preserves_failed unblockOk ip2 hfail _ _
  · intro st2 ip2 e hfail hlook hexp now2 hle
    have hpres := cleanup_fold_preserves_failed unblockOk ip2 hfail
      (expired_ips now st2) (st2, [])
    have hlook2 : (cleanup_expired_blocks unblockOk now st2).1.blockedIps.lookup ip2
        = some e := by
      rw [cleanup_expired_blocks, hpres]
      exact hlook
    have hmem : (ip2, e) ∈ (cleanup_expired_blocks unblockOk now st2).1.blockedIps :=
      mem_of_lookup_eq_some hlook2
    rw [expired_ips]
    exact List.mem_map.mpr
      ⟨(ip2, e),
       List.mem_filter.mpr ⟨hmem, decide_eq_true (le_trans hexp hle)⟩, rfl⟩

/-- Demonstration blocklist for the prevention-engine witnesses: one blocked
address with expiry 50. -/
def prev_demo_state : PrevState :=
  ⟨[("203.0.113.9", 50)], [("SYN Flood", ["203.0.113.9"])]⟩

/-- Witness for C8 with an always-failing effector at a concrete state. -/
theorem claim_c8_effector_failure_witness :
    prev_demo_state.blockedIps.lookup "198.51.100.7" = none ∧
    ((fun _ : String => false) "198.51.100.7") = false ∧
    (do_block_ip (fun _ => false) 100 300 prev_demo_state "198.51.100.7" "UDP Flood" none
        = (false, prev_demo_state, [.addRule "198.51.100.7"]) ∧
     (∀ (st2 : PrevState) (ip2 : String) (e : ℚ), (fun _ : String => false) ip2 = false →
       st2.blockedIps.lookup ip2 = some e →
       unblock_ip (fun _ => false) st2 ip2 = (false, st2, [.delRule ip2])) ∧
     (∀ (st2 : PrevState) (ip2 : String), (fun _ : String => false) ip2 = false →
       (cleanup_expired_blocks (fun _ => false) 100 st2).1.blockedIps.lookup ip2
         = st2.blockedIps.lookup ip2) ∧
     (∀ (st2 : PrevState) (ip2 : String) (e : ℚ), (fun _ : String => false) ip2 = false →
       st2.blockedIps.lookup ip2 = some e → e ≤ 100 →
       ∀ now2, (100 : ℚ) ≤ now2 →
         ip2 ∈ expired_ips now2 (cleanup_expired_blocks (fun _ => false) 100 st2).1)) :=
  ⟨rfl, rfl,
   claim_c8_effector_failure (fun _ => false) (fun _ => false) 100 300 prev_demo_state
     "198.51.100.7" "UDP Flood" none rfl rfl⟩

theorem lookup_dict_set_self (l : List (String × α)) (k : String) (v : α) :
    (dict_set l k v).lookup k = some v := by
  induction l with
  | nil => simp [dict_set, List.lookup]
  | cons p rest ih =>
    by_cases hp : p.1 = k
    · simp [dict_set, hp, List.lookup]
    · simp only [dict_set, if_neg hp]
      have hbeq : (k == p.1) = false := beq_false_of_ne (fun hc => hp hc.symm)
      simp only [List.lookup, hbeq]
      exact ih

theorem dict_set_keys_of_lookup (l : List (String × α)) (k : String) (v w : α)
    (h : l.lookup k = some w) : (dict_set l k v).map Prod.fst = l.map Prod.fst := by
  induction l with
  | nil => simp [List.lookup] at h
  | cons p rest ih =>
    by_cases hp : p.1 = k
    · simp [dict_set, hp]
    · have hbeq : (k == p.1) = false := beq_false_of_ne (fun hc => hp hc.symm)
      simp only [List.lookup, hbeq] at h
      simp only [dict_set, if_neg hp, List.map_cons]
      rw [ih h]

theorem mem_set_add (l : List String) (ip : String) : ip ∈ set_add l ip := by
  by_cases h : ip ∈ l
  · simp [set_add, h]
  · simp [set_add, h]

theorem lookup_append_of_none (l l2 : List (String × α)) (k : String)
    (h : l.lookup k = none) : (l ++ l2).lookup k = l2.lookup k := by
  induction l with
  | nil => rfl
  | cons p rest ih =>
    cases hbeq : (k == p.1) with
    | true =>
      simp only [List.lookup, hbeq] at h
      exact absurd h (Option.some_ne_none _)
    | false =>
      simp only [List.lookup, hbeq] at h
      simp only [List.cons_append, List.lookup, hbeq]
      exact ih h

theorem mem_add_type_entry (bt : List (String × List String)) (atype ip : String) :
    ip ∈ ((add_type_entry bt atype ip).lookup atype).getD [] := by
  cases hbt : bt.lookup atype with
  | some ips =>
    simp only [add_type_entry, hbt]
    rw [lookup_dict_set_self]
    exact mem_set_add ips ip
  | none =>
    simp only [add_type_entry, hbt]
    rw [lookup_append_of_none _ _ _ hbt]
    simp [List.lookup]

/-- C9: a second block of an already-blocked address keeps exactly one
blocklist entry for it, extends the expiry to the later of the existing expiry
and now plus the resolved duration, records the new attack type, and returns
true without issuing any firewall command. -/
theorem claim_c9_repeat_block (blockOk : String → Bool) (now defaultDur : ℚ)
    (st : PrevState) (ip attackType : String) (duration : Option ℚ) (oldExpiry : ℚ)
    (h1 : st.blockedIps.lookup ip = some oldExpiry)
    (hnodup : (st.blockedIps.map Prod.fst).Nodup) :
    (do_block_ip blockOk now defaultDur st ip attackType duration).1 = true ∧
    (do_block_ip blockOk now defaultDur st ip attackType duration).2.2 = [] ∧
    (do_block_ip blockOk now defaultDur st ip attackType duration).2.1.blockedIps.lookup ip
        = some (max oldExpiry (now + resolve_duration duration defaultDur)) ∧
    ((do_block_ip blockOk now defaultDur st ip attackType duration).2.1.blockedIps.map
        Prod.fst).count ip = 1 ∧
    ip ∈ (((do_block_ip blockOk now defaultDur st ip attackType
        duration).2.1.blockedByType.lookup attackType).getD []) := by
  have hkeymem : ip ∈ st.blockedIps.map Prod.fst :=
    List.mem_map.mpr ⟨(ip, oldExpiry), mem_of_lookup_eq_some h1, rfl⟩
  simp only [do_block_ip, h1]
  by_cases hgt : now + resolve_duration duration defaultDur > oldExpiry
  · simp only [if_pos hgt]
    refine ⟨trivial, trivial, ?_, ?_, mem_add_type_entry _ _ _⟩
    · rw [lookup_dict_set_self, max_eq_right (le_of_lt hgt)]
    · rw [dict_set_keys_of_lookup _ _ _ _ h1]
      exact List.count_eq_one_of_mem hnodup hkeymem
  · simp only [if_neg hgt]
    refine ⟨trivial, trivial, ?_, ?_, mem_add_type_entry _ _ _⟩
    · rw [h1, max_eq_left (not_lt.mp hgt)]
    · exact List.count_eq_one_of_mem hnodup hkeymem

/-- Witness for C9: re-blocking the already blocked demonstration address. -/
theorem claim_c9_repeat_block_witness :
    prev_demo_state.blockedIps.lookup "203.0.113.9" = some 50 ∧
    (prev_demo_state.blockedIps.map Prod.fst).Nodup ∧
    ((do_block_ip (fun _ => true) 100 300 prev_demo_state "203.0.113.9" "UDP Flood" none).1
        = true ∧
     (do_block_ip (fun _ => true) 100 300 prev_demo_state "203.0.113.9" "UDP Flood" none).2.2
        = [] ∧
     (do_block_ip (fun _ => true) 100 300 prev_demo_state "203.0.113.9" "UDP Flood"
          none).2.1.blockedIps.lookup "203.0.113.9"
        = some (max 50 (100 + resolve_duration none 300)) ∧
     ((do_block_ip (fun _ => true) 100 300 prev_demo_state "203.0.113.9" "UDP Flood"
          none).2.1.blockedIps.map Prod.fst).count "203.0.113.9" = 1 ∧
     "203.0.113.9" ∈ (((do_block_ip (fun _ => true) 100 300 prev_demo_state "203.0.113.9"
          "UDP Flood" none).2.1.blockedByType.lookup "UDP Flood").getD [])) :=
  ⟨rfl, by decide,
   claim_c9_repeat_block (fun _ => true) 100 300 prev_demo_state "203.0.113.9" "UDP Flood"
     none 50 rfl (by decide)⟩

/-- C10: unblocking an address that is not in blocked_ips returns false,
issues no firewall command, and leaves the whole blocklist state unchanged. -/
theorem claim_c10_unblock_absent (unblockOk : String → Bool) (st : PrevState)
    (ip : String) (h : st.blockedIps.lookup ip = none) :
    unblock_ip unblockOk st ip = (false, st, []) := by
  simp [unblock_ip, h]

/-- Witness for C10 at the demonstration state and an unknown address. -/
theorem claim_c10_unblock_absent_witness :
    prev_demo_state.blockedIps.lookup "198.51.100.7" = none ∧
    unblock_ip (fun _ => true) prev_demo_state "198.51.100.7"
      = (false, prev_demo_state, []) :=
  ⟨rfl, claim_c10_unblock_absent (fun _ => true) prev_demo_state "198.51.100.7" rfl⟩

end DDoSVerify
